import Mathlib

/-!
Verification of the offline write-queue and resync subsystem of the
pizza-hunt repository (src/public/assets/js/idb.js).

The embedding models:
  * the `new_pizza` IndexedDB object store (auto-incrementing keys) as `Store`;
  * `saveRecord` (enqueue) as `Store.add`;
  * the drain performed by `uploadPizza` (`getAll`) as `Store.getAll`;
  * `clear` as `Store.clear`;
  * the response handling of `uploadPizza` — `fetch` followed by
    `response.json()` and the `serverResponse.message` check — as
    `uploadPizza` over a `FetchOutcome`;
  * the whole event-driven client (connection success callback, `online`
    listener, interleaved getAll/fetch continuations) as a small labelled
    transition system `step` over `SysState`.
-/

namespace PizzaHunt

/-- A queued pizza-creation payload. The queue code treats records as opaque
JSON values; we carry the two fields the spec scenarios mention. -/
structure Record where
  pizzaName : String
  size : String
deriving DecidableEq, Repr

/-- The `new_pizza` object store: records keyed by the auto-increment key
generator (`createObjectStore('new_pizza', { autoIncrement: true })`).
`nextKey` is the generator state; IndexedDB starts it at 1, and `clear`
does not reset it. -/
structure Store where
  items : List (Nat × Record)
  nextKey : Nat
deriving DecidableEq, Repr

/-- A freshly created object store. -/
def Store.empty : Store := ⟨[], 1⟩

/-- `pizzaObjectStore.add(record)` inside `saveRecord`: append under the
next auto-generated key. -/
def Store.add (s : Store) (r : Record) : Store :=
  ⟨s.items ++ [(s.nextKey, r)], s.nextKey + 1⟩

/-- `pizzaObjectStore.getAll()` inside `uploadPizza`: all records in key
(insertion) order, non-destructively. -/
def Store.getAll (s : Store) : List Record :=
  s.items.map Prod.snd

/-- `pizzaObjectStore.clear()`: remove every record (the key generator is
not reset). -/
def Store.clear (s : Store) : Store :=
  ⟨[], s.nextKey⟩

/-- All keys in the store are below the generator value; holds for every
store built by the code and makes fresh keys unique. -/
def Store.WellKeyed (s : Store) : Prop :=
  ∀ k ∈ s.items.map Prod.fst, k < s.nextKey

instance (s : Store) : Decidable s.WellKeyed := by
  unfold Store.WellKeyed; infer_instance

/-- What the `fetch('/api/pizzas', …)` promise chain can observe: a network
error (rejected fetch), or a response with an HTTP status, whether
`response.json()` parses, and whether the parsed body has a `message`
field. -/
inductive FetchOutcome where
  | networkError
  | response (status : Nat) (parseOk : Bool) (hasMessage : Bool)
deriving DecidableEq, Repr

/-- The success test actually performed by `uploadPizza`: the fetch promise
resolved, `response.json()` succeeded, and the body carries no `message`
field. The HTTP status is never consulted by the code. -/
def FetchOutcome.acceptedByClient : FetchOutcome → Bool
  | .networkError => false
  | .response _ parseOk hasMessage => parseOk && !hasMessage

/-- Observable result of one complete run of `uploadPizza` (the flush
finishing before anything else touches the store). -/
structure FlushResult where
  store : Store
  fetched : Option (List Record)
  clearedQueue : Bool
  alerted : Bool
  loggedError : Bool
deriving DecidableEq, Repr

/-- `uploadPizza` run atomically: drain with `getAll`; if the result is
nonempty, POST it; on a body without `message`, clear the store and
alert; otherwise the `.catch` logs and the store is untouched. -/
def uploadPizza (s : Store) (o : FetchOutcome) : FlushResult :=
  let batch := s.getAll
  if batch.length > 0 then
    if o.acceptedByClient then
      ⟨s.clear, some batch, true, true, false⟩
    else
      ⟨s, some batch, false, false, true⟩
  else
    ⟨s, none, false, false, false⟩

/-- Phase of an in-progress `uploadPizza` call: waiting for the
`getAll.onsuccess` callback, or waiting for the fetch promise with the
drained (keyed) batch captured. -/
inductive Flush where
  | draining
  | inflight (batch : List (Nat × Record))
deriving DecidableEq, Repr

/-- State of the whole client page: whether `request.onsuccess` has set the
shared `db` handle, the persistent object store, the pending `uploadPizza`
continuations, and observation logs (payloads POSTed, keyed batches that
received a success response, alerts shown, errors logged via console,
uncaught exceptions from using the uninitialized `db`). -/
structure SysState where
  connected : Bool
  store : Store
  flushes : List Flush
  submitted : List (List Record)
  accepted : List (List (Nat × Record))
  alerts : Nat
  loggedErrors : Nat
  jsErrors : Nat
deriving DecidableEq, Repr

/-- Page load: `db` unset, fresh store, nothing pending. -/
def initState : SysState :=
  ⟨false, Store.empty, [], [], [], 0, 0, 0⟩

/-- Events of the single-threaded event loop: the IndexedDB open success
callback (with the value of `navigator.onLine`), the window `online`
event, a form submission falling back to `saveRecord r`, the
`getAll.onsuccess` continuation of pending flush `i`, and the resolution
of flush `i`'s fetch with outcome `o`. -/
inductive Event where
  | connect (onLine : Bool)
  | onlineSignal
  | save (r : Record)
  | drain (i : Nat)
  | respond (i : Nat) (o : FetchOutcome)
deriving DecidableEq, Repr

/-- One event-loop step. `connect` sets `db` and, when online, starts an
`uploadPizza`; the `online` listener starts one too, but with `db` still
unset `db.transaction` throws (a counted `jsError`, nothing else happens);
`save` likewise throws when `db` is unset and otherwise appends; `drain i`
runs flush `i`'s `getAll.onsuccess`: an empty result ends the flush with
no fetch, a nonempty one POSTs it; `respond i o` runs the promise chain:
a body without `message` clears the store and alerts, anything else is
caught and logged. -/
def step (s : SysState) (e : Event) : SysState :=
  match e with
  | .connect onLine =>
      let s1 := { s with connected := true }
      if onLine then { s1 with flushes := s1.flushes ++ [.draining] } else s1
  | .onlineSignal =>
      if s.connected then { s with flushes := s.flushes ++ [.draining] }
      else { s with jsErrors := s.jsErrors + 1 }
  | .save r =>
      if s.connected then { s with store := s.store.add r }
      else { s with jsErrors := s.jsErrors + 1 }
  | .drain i =>
      match s.flushes[i]? with
      | some .draining =>
          if s.store.items.isEmpty then
            { s with flushes := s.flushes.eraseIdx i }
          else
            { s with flushes := s.flushes.set i (.inflight s.store.items),
                     submitted := s.submitted ++ [s.store.getAll] }
      | _ => s
  | .respond i o =>
      match s.flushes[i]? with
      | some (.inflight b) =>
          if o.acceptedByClient then
            { s with flushes := s.flushes.eraseIdx i,
                     store := s.store.clear,
                     accepted := s.accepted ++ [b],
                     alerts := s.alerts + 1 }
          else
            { s with flushes := s.flushes.eraseIdx i,
                     loggedErrors := s.loggedErrors + 1 }
      | _ => s

/-- Run a list of events from the initial page state. -/
def run (es : List Event) : SysState :=
  es.foldl step initState

/-! ## Helper lemmas -/

/-- `getAll` after a fold of `add` appends the enqueued records in order. -/
theorem getAll_foldl_add (s : Store) (rs : List Record) :
    (rs.foldl Store.add s).getAll = s.getAll ++ rs := by
  induction rs generalizing s with
  | nil => simp
  | cons r rs ih =>
      simp only [List.foldl_cons, ih]
      simp [Store.add, Store.getAll]

/-- A `drain` step never changes the object store. -/
theorem store_step_drain (s : SysState) (i : Nat) :
    (step s (Event.drain i)).store = s.store := by
  simp only [step]
  cases h : s.flushes[i]? with
  | none => simp [h]
  | some f =>
      cases f with
      | draining => by_cases he : s.store.items.isEmpty <;> simp [h, he]
      | inflight b => simp [h]

/-- A `connect` step (reopening the storage container) never changes the
object store. -/
theorem store_step_connect (s : SysState) (b : Bool) :
    (step s (Event.connect b)).store = s.store := by
  simp only [step]
  by_cases hb : b <;> simp [hb]

/-! ## Claims -/

/-- C3: enqueueing `r1 … rn` into a fresh store and then draining yields
exactly `[r1,…,rn]` in insertion order; the drain step leaves the store
untouched; and on the empty queue the drain result is the empty list. -/
theorem drain_returns_enqueued_in_order :
    (∀ rs : List Record, (rs.foldl Store.add Store.empty).getAll = rs) ∧
    (∀ (s : SysState) (i : Nat), (step s (Event.drain i)).store = s.store) ∧
    Store.empty.getAll = [] := by
  refine ⟨fun rs => ?_, store_step_drain, rfl⟩
  rw [getAll_foldl_add]
  simp [Store.empty, Store.getAll]

/-- C4: when the drained batch is nonempty and the fetch resolves to a body
without a `message` field, `uploadPizza` clears the store (leaving the
queue empty) and shows the confirmation alert. -/
theorem flush_success_clears_and_alerts (s : Store) (o : FetchOutcome)
    (hne : s.getAll ≠ []) (hok : o.acceptedByClient = true) :
    (uploadPizza s o).store.items = [] ∧
    (uploadPizza s o).clearedQueue = true ∧
    (uploadPizza s o).alerted = true := by
  unfold uploadPizza
  have hlen : s.getAll.length > 0 := List.length_pos.mpr hne
  simp [hlen, hok, Store.clear]

/-- Witness for C4: the spec scenario `{pizzaName:"Zesty", size:"Large"}`
with a clean success response. -/
theorem flush_success_clears_and_alerts_witness :
    (Store.empty.add ⟨"Zesty", "Large"⟩).getAll ≠ [] ∧
    (FetchOutcome.response 200 true false).acceptedByClient = true ∧
    ((uploadPizza (Store.empty.add ⟨"Zesty", "Large"⟩)
        (FetchOutcome.response 200 true false)).store.items = [] ∧
     (uploadPizza (Store.empty.add ⟨"Zesty", "Large"⟩)
        (FetchOutcome.response 200 true false)).clearedQueue = true ∧
     (uploadPizza (Store.empty.add ⟨"Zesty", "Large"⟩)
        (FetchOutcome.response 200 true false)).alerted = true) :=
  ⟨by decide, by decide,
   flush_success_clears_and_alerts _ _ (by decide) (by decide)⟩

/-- C1 counterexample: `uploadPizza` never consults the HTTP status. A
non-2xx response (HTTP 500) whose JSON body parses and carries no
`message` field is treated as success: the queue is cleared, the
confirmation alert fires, and nothing is logged — contradicting the claim
that every non-2xx response leaves the queue intact with no confirmation. -/
theorem flush_nonOk_status_clears_counterexample :
    (uploadPizza (Store.empty.add ⟨"Zesty", "Large"⟩)
        (FetchOutcome.response 500 true false)).store.items = [] ∧
    (uploadPizza (Store.empty.add ⟨"Zesty", "Large"⟩)
        (FetchOutcome.response 500 true false)).clearedQueue = true ∧
    (uploadPizza (Store.empty.add ⟨"Zesty", "Large"⟩)
        (FetchOutcome.response 500 true false)).alerted = true ∧
    (uploadPizza (Store.empty.add ⟨"Zesty", "Large"⟩)
        (FetchOutcome.response 500 true false)).loggedError = false := by
  decide

/-- C1 amended: on every flush attempt whose submission fails in a way the
client actually detects — rejected fetch, unparseable body, or a body
carrying a `message` field (the HTTP status is never consulted) — the
queue is left intact, the error is logged, and no confirmation is
emitted. -/
theorem flush_failure_leaves_queue_intact (s : Store) (o : FetchOutcome)
    (hne : s.getAll ≠ []) (hfail : o.acceptedByClient = false) :
    (uploadPizza s o).store = s ∧
    (uploadPizza s o).clearedQueue = false ∧
    (uploadPizza s o).alerted = false ∧
    (uploadPizza s o).loggedError = true := by
  unfold uploadPizza
  have hlen : s.getAll.length > 0 := List.length_pos.mpr hne
  simp [hlen, hfail]

/-- Witness for the amended C1: one queued record, fetch rejects with a
network error. -/
theorem flush_failure_leaves_queue_intact_witness :
    (Store.empty.add ⟨"Zesty", "Large"⟩).getAll ≠ [] ∧
    FetchOutcome.networkError.acceptedByClient = false ∧
    ((uploadPizza (Store.empty.add ⟨"Zesty", "Large"⟩)
        FetchOutcome.networkError).store = Store.empty.add ⟨"Zesty", "Large"⟩ ∧
     (uploadPizza (Store.empty.add ⟨"Zesty", "Large"⟩)
        FetchOutcome.networkError).clearedQueue = false ∧
     (uploadPizza (Store.empty.add ⟨"Zesty", "Large"⟩)
        FetchOutcome.networkError).alerted = false ∧
     (uploadPizza (Store.empty.add ⟨"Zesty", "Large"⟩)
        FetchOutcome.networkError).loggedError = true) :=
  ⟨by decide, by decide,
   flush_failure_leaves_queue_intact _ _ (by decide) (by decide)⟩

/-- C6 counterexample: when the first flush attempt fails (network error),
the queue is not cleared, so the second connectivity-restored event
drains the same nonempty batch and POSTs it again — the second drain is
not empty and a second submission of the same records occurs. -/
theorem second_flush_after_failure_resubmits_counterexample :
    (uploadPizza (Store.empty.add ⟨"Zesty", "Large"⟩)
        FetchOutcome.networkError).store.getAll = [Record.mk "Zesty" "Large"] ∧
    (uploadPizza
        (uploadPizza (Store.empty.add ⟨"Zesty", "Large"⟩)
          FetchOutcome.networkError).store
        (FetchOutcome.response 200 true false)).fetched
      = some [Record.mk "Zesty" "Large"] := by
  decide

/-- C6 amended: provided the first flush attempt ran to completion with an
accepted response before the second connectivity event's drain executes,
the store is empty afterwards, so the second `uploadPizza` drains the
empty sequence, performs no fetch (hence no duplicate submission), and
changes nothing. -/
theorem second_flush_after_success_noop (s : Store) (o1 o2 : FetchOutcome)
    (hok : o1.acceptedByClient = true) :
    (uploadPizza s o1).store.getAll = [] ∧
    (uploadPizza (uploadPizza s o1).store o2).fetched = none ∧
    (uploadPizza (uploadPizza s o1).store o2).store = (uploadPizza s o1).store := by
  have hempty : (uploadPizza s o1).store.getAll = [] := by
    unfold uploadPizza
    by_cases h : s.getAll.length > 0
    · have h2 : 0 < s.items.length := by simpa [Store.getAll] using h
      simp [h, h2, hok, Store.clear, Store.getAll]
    · have hnil : s.getAll = [] := by
        cases hg : s.getAll with
        | nil => rfl
        | cons a t => rw [hg] at h; simp at h
      simp [h, hnil]
  refine ⟨hempty, ?_, ?_⟩ <;>
    · conv_lhs => rw [uploadPizza]
      simp [hempty]

/-- Witness for the amended C6: one queued record, accepted first response,
second response arbitrary. -/
theorem second_flush_after_success_noop_witness :
    (FetchOutcome.response 200 true false).acceptedByClient = true ∧
    ((uploadPizza (Store.empty.add ⟨"Zesty", "Large"⟩)
        (FetchOutcome.response 200 true false)).store.getAll = [] ∧
     (uploadPizza
        (uploadPizza (Store.empty.add ⟨"Zesty", "Large"⟩)
          (FetchOutcome.response 200 true false)).store
        FetchOutcome.networkError).fetched = none ∧
     (uploadPizza
        (uploadPizza (Store.empty.add ⟨"Zesty", "Large"⟩)
          (FetchOutcome.response 200 true false)).store
        FetchOutcome.networkError).store
      = (uploadPizza (Store.empty.add ⟨"Zesty", "Large"⟩)
          (FetchOutcome.response 200 true false)).store) :=
  ⟨by decide,
   second_flush_after_success_noop _ _ FetchOutcome.networkError (by decide)⟩

/-- C7: the drain-then-clear data-loss window is reachable. In the trace
connect, save r1, online, getAll-callback, save r2, success-response,
the record r2 lands after the drain snapshot but before the clear: it is
present in the store just before the response arrives, it occurs in no
POSTed batch, and the final store is empty — r2 was destroyed without
ever being submitted. -/
theorem drain_clear_window_loses_record :
    ((run [Event.connect false, Event.save ⟨"Zesty", "Large"⟩,
        Event.onlineSignal, Event.drain 0,
        Event.save ⟨"Veggie", "Small"⟩]).store.items
      = [(1, ⟨"Zesty", "Large"⟩), (2, ⟨"Veggie", "Small"⟩)]) ∧
    ((run [Event.connect false, Event.save ⟨"Zesty", "Large"⟩,
        Event.onlineSignal, Event.drain 0, Event.save ⟨"Veggie", "Small"⟩,
        Event.respond 0 (FetchOutcome.response 200 true false)]).store.items
      = []) ∧
    ((run [Event.connect false, Event.save ⟨"Zesty", "Large"⟩,
        Event.onlineSignal, Event.drain 0, Event.save ⟨"Veggie", "Small"⟩,
        Event.respond 0 (FetchOutcome.response 200 true false)]).submitted
      = [[⟨"Zesty", "Large"⟩]]) ∧
    (∀ b ∈ (run [Event.connect false, Event.save ⟨"Zesty", "Large"⟩,
        Event.onlineSignal, Event.drain 0, Event.save ⟨"Veggie", "Small"⟩,
        Event.respond 0 (FetchOutcome.response 200 true false)]).submitted,
      Record.mk "Veggie" "Small" ∉ b) := by
  decide

/-- C2 counterexample: in the same interleaving, the queued record
`(2, Veggie)` is removed from the store by the clear even though it
belongs to no batch that received a successful server response — the
claimed invariant fails for this operation sequence. -/
theorem queued_record_removed_without_acceptance_counterexample :
    ((2, Record.mk "Veggie" "Small") ∈
      (run [Event.connect false, Event.save ⟨"Zesty", "Large"⟩,
        Event.onlineSignal, Event.drain 0,
        Event.save ⟨"Veggie", "Small"⟩]).store.items) ∧
    ((2, Record.mk "Veggie" "Small") ∉
      (run [Event.connect false, Event.save ⟨"Zesty", "Large"⟩,
        Event.onlineSignal, Event.drain 0, Event.save ⟨"Veggie", "Small"⟩,
        Event.respond 0 (FetchOutcome.response 200 true false)]).store.items) ∧
    (∀ b ∈ (run [Event.connect false, Event.save ⟨"Zesty", "Large"⟩,
        Event.onlineSignal, Event.drain 0, Event.save ⟨"Veggie", "Small"⟩,
        Event.respond 0 (FetchOutcome.response 200 true false)]).accepted,
      (2, Record.mk "Veggie" "Small") ∉ b) := by
  decide

/-- A flush that has already captured its drain snapshot and is awaiting
the fetch response. -/
def Flush.isInflight : Flush → Bool
  | .inflight _ => true
  | .draining => false

/-- No pending flush is between its drain and its response. -/
def SysState.noInflight (s : SysState) : Bool :=
  s.flushes.all fun f => ! f.isInflight

/-- Restriction ruling out the drain-then-clear window: a `save` may only
run while no flush is in flight; every other event is unrestricted. -/
def eventOk (s : SysState) (e : Event) : Bool :=
  match e with
  | .save _ => s.noInflight
  | _ => true

/-- States reachable from page load under the restriction. -/
inductive ReachableSeq : SysState → Prop where
  | init : ReachableSeq initState
  | next {s : SysState} {e : Event} :
      ReachableSeq s → eventOk s e = true → ReachableSeq (step s e)

/-- Every in-flight batch contains the whole current store. -/
def Inv (s : SysState) : Prop :=
  ∀ b : List (Nat × Record), Flush.inflight b ∈ s.flushes →
    ∀ kr ∈ s.store.items, kr ∈ b

theorem inv_initState : Inv initState := by
  intro b hb
  simp [initState] at hb

theorem inv_step {s : SysState} {e : Event} (hinv : Inv s)
    (hok : eventOk s e = true) : Inv (step s e) := by
  cases e with
  | connect onLine =>
      intro b hb kr hkr
      simp only [step] at hb hkr
      by_cases h : onLine <;> simp [h] at hb hkr <;>
        exact hinv b hb kr hkr
  | onlineSignal =>
      intro b hb kr hkr
      simp only [step] at hb hkr
      by_cases h : s.connected <;> simp [h] at hb hkr <;>
        exact hinv b hb kr hkr
  | save r =>
      intro b hb kr hkr
      simp only [step] at hb hkr
      by_cases h : s.connected <;> simp [h] at hb hkr
      · exfalso
        have := List.all_eq_true.mp hok (Flush.inflight b) hb
        simp [Flush.isInflight] at this
      · exact hinv b hb kr hkr
  | drain i =>
      intro b hb kr hkr
      simp only [step] at hb hkr
      cases hfl : s.flushes[i]? with
      | none => rw [hfl] at hb hkr; exact hinv b hb kr hkr
      | some f =>
          cases f with
          | draining =>
              rw [hfl] at hb hkr
              by_cases he : s.store.items.isEmpty <;> simp [he] at hb hkr
              · exact hinv b ((s.flushes.eraseIdx_sublist i).mem hb) kr hkr
              · rcases List.mem_or_eq_of_mem_set hb with hb | hb
                · exact hinv b hb kr hkr
                · cases hb; exact hkr
          | inflight b2 => rw [hfl] at hb hkr; exact hinv b hb kr hkr
  | respond i o =>
      intro b hb kr hkr
      simp only [step] at hb hkr
      cases hfl : s.flushes[i]? with
      | none => rw [hfl] at hb hkr; exact hinv b hb kr hkr
      | some f =>
          cases f with
          | draining => rw [hfl] at hb hkr; exact hinv b hb kr hkr
          | inflight b2 =>
              rw [hfl] at hb hkr
              by_cases ho : o.acceptedByClient <;> simp [ho, Store.clear] at hb hkr
              exact hinv b ((s.flushes.eraseIdx_sublist i).mem hb) kr hkr

theorem inv_of_reachableSeq {s : SysState} (h : ReachableSeq s) : Inv s := by
  induction h with
  | init => exact inv_initState
  | next _ hok ih => exact inv_step ih hok

/-- An index lookup that returns a value puts that value in the list. -/
theorem mem_of_lookup_eq_some {α : Type _} {l : List α} {i : Nat} {a : α}
    (h : l[i]? = some a) : a ∈ l := by
  rcases List.getElem?_eq_some.mp h with ⟨hlt, hget⟩
  exact hget ▸ List.getElem_mem hlt

/-- C2 amended: under the restriction that no enqueue runs while some flush
is between its drain and its response (ruling out the C7 window), any
record a step removes from the store belongs to a batch that received a
successful server response — records are absent, queued, or removed after
confirmed acceptance. -/
theorem removal_requires_accepted_batch (s : SysState) (e : Event)
    (hs : ReachableSeq s) (hok : eventOk s e = true)
    (kr : Nat × Record) (hin : kr ∈ s.store.items)
    (hout : kr ∉ (step s e).store.items) :
    ∃ b, b ∈ (step s e).accepted ∧ kr ∈ b := by
  cases e with
  | connect c => rw [store_step_connect] at hout; exact absurd hin hout
  | drain i => rw [store_step_drain] at hout; exact absurd hin hout
  | onlineSignal =>
      exfalso; apply hout
      simp only [step]
      by_cases h : s.connected <;> simp [h, hin]
  | save r =>
      exfalso; apply hout
      simp only [step]
      by_cases h : s.connected <;> simp [h, Store.add, hin]
  | respond i o =>
      simp only [step] at hout ⊢
      cases hfl : s.flushes[i]? with
      | none => simp only [hfl] at hout ⊢; exact absurd hin hout
      | some f =>
          cases f with
          | draining => simp only [hfl] at hout ⊢; exact absurd hin hout
          | inflight b =>
              simp only [hfl] at hout ⊢
              by_cases ho : o.acceptedByClient
              · simp only [ho, if_pos] at hout ⊢
                refine ⟨b, List.mem_append_right _ (List.mem_singleton.mpr rfl), ?_⟩
                exact inv_of_reachableSeq hs b (mem_of_lookup_eq_some hfl) kr hin
              · simp only [ho] at hout ⊢
                simp at hout
                exact absurd hin hout

/-- The four-event prefix connect, save, online signal, drain: a state with
one queued record whose flush is in flight. -/
def windowFreePrefix : SysState :=
  step (step (step (step initState (Event.connect false))
    (Event.save ⟨"Zesty", "Large"⟩)) Event.onlineSignal) (Event.drain 0)

/-- Witness for the amended C2: responding with success to the in-flight
flush of `windowFreePrefix` removes `(1, Zesty)`, and indeed that record
sits in an accepted batch. -/
theorem removal_requires_accepted_batch_witness :
    ∃ b, b ∈ (step windowFreePrefix
        (Event.respond 0 (FetchOutcome.response 200 true false))).accepted ∧
      ((1 : Nat), Record.mk "Zesty" "Large") ∈ b :=
  removal_requires_accepted_batch windowFreePrefix
    (Event.respond 0 (FetchOutcome.response 200 true false))
    (ReachableSeq.next (ReachableSeq.next (ReachableSeq.next (ReachableSeq.next
      ReachableSeq.init (by decide)) (by decide)) (by decide)) (by decide))
    (by decide) ((1 : Nat), Record.mk "Zesty" "Large") (by decide) (by decide)

/-- C5: enqueue appends under the fresh auto-generated key, that key is
unique (it belongs to no existing record), reopening the storage
connection preserves the store, and on a fresh page enqueue of `r`
followed by a reopen and a drain — no clear in between — yields `[r]`. -/
theorem enqueue_durable_append (s : SysState) (r : Record) (c : Bool)
    (hw : s.store.WellKeyed) :
    (s.store.add r).items = s.store.items ++ [(s.store.nextKey, r)] ∧
    s.store.nextKey ∉ s.store.items.map Prod.fst ∧
    (step s (Event.connect c)).store = s.store ∧
    (run [Event.connect false, Event.save r,
        Event.connect false]).store.getAll = [r] := by
  refine ⟨rfl, ?_, store_step_connect s c, rfl⟩
  intro hmem
  exact absurd (hw _ hmem) (lt_irrefl _)

/-- Witness for C5 at the freshly loaded page and the scenario record. -/
theorem enqueue_durable_append_witness :
    initState.store.WellKeyed ∧
    ((initState.store.add ⟨"Zesty", "Large"⟩).items
        = initState.store.items ++ [(initState.store.nextKey,
            Record.mk "Zesty" "Large")] ∧
     initState.store.nextKey ∉ initState.store.items.map Prod.fst ∧
     (step initState (Event.connect true)).store = initState.store ∧
     (run [Event.connect false, Event.save ⟨"Zesty", "Large"⟩,
        Event.connect false]).store.getAll = [Record.mk "Zesty" "Large"]) :=
  ⟨by decide, enqueue_durable_append initState ⟨"Zesty", "Large"⟩ true (by decide)⟩

/-- C8: an `online` event starts exactly one `uploadPizza` call when the
`db` handle is set (and none before — the listener throws on the unset
handle); the initial successful connection synthetically starts exactly
one flush when `navigator.onLine` is true and none when it is false. -/
theorem connectivity_triggers_one_flush (s : SysState) :
    ((step s Event.onlineSignal).flushes.length
        = s.flushes.length + (if s.connected then 1 else 0)) ∧
    ((step s (Event.connect true)).flushes.length = s.flushes.length + 1) ∧
    ((step s (Event.connect false)).flushes.length = s.flushes.length) := by
  refine ⟨?_, by simp [step], by simp [step]⟩
  simp only [step]
  by_cases h : s.connected <;> simp [h]

/-- C9: before `request.onsuccess` has set the shared `db` handle, both
`saveRecord` and the `online`-triggered `uploadPizza` throw on the
uninitialized handle: nothing is stored, no flush starts, no submission
happens — only the uncaught-error count grows. -/
theorem ops_before_connect_fail (s : SysState) (r : Record)
    (h : s.connected = false) :
    (step s (Event.save r)).store = s.store ∧
    (step s (Event.save r)).jsErrors = s.jsErrors + 1 ∧
    (step s Event.onlineSignal).flushes = s.flushes ∧
    (step s Event.onlineSignal).submitted = s.submitted ∧
    (step s Event.onlineSignal).jsErrors = s.jsErrors + 1 := by
  simp [step, h]

/-- Witness for C9 on the freshly loaded page. -/
theorem ops_before_connect_fail_witness :
    initState.connected = false ∧
    ((step initState (Event.save ⟨"Zesty", "Large"⟩)).store = initState.store ∧
     (step initState (Event.save ⟨"Zesty", "Large"⟩)).jsErrors
        = initState.jsErrors + 1 ∧
     (step initState Event.onlineSignal).flushes = initState.flushes ∧
     (step initState Event.onlineSignal).submitted = initState.submitted ∧
     (step initState Event.onlineSignal).jsErrors = initState.jsErrors + 1) :=
  ⟨by decide, ops_before_connect_fail initState ⟨"Zesty", "Large"⟩ (by decide)⟩

/-- Classification of how one step can change the store: unchanged, an
append by `saveRecord`, or emptied by the `clear` run on an accepted
response. -/
theorem store_change_cases (s : SysState) (e : Event) :
    (step s e).store = s.store ∨
    (∃ r, e = Event.save r ∧ (step s e).store = s.store.add r) ∨
    (∃ j o, e = Event.respond j o ∧ o.acceptedByClient = true ∧
      (step s e).store = s.store.clear) := by
  cases e with
  | connect c => exact Or.inl (store_step_connect s c)
  | onlineSignal =>
      left; simp only [step]
      by_cases h : s.connected <;> simp [h]
  | save r =>
      by_cases h : s.connected
      · exact Or.inr (Or.inl ⟨r, rfl, by simp [step, h]⟩)
      · left; simp [step, h]
  | drain i => exact Or.inl (store_step_drain s i)
  | respond i o =>
      cases hfl : s.flushes[i]? with
      | none => left; simp [step, hfl]
      | some f =>
          cases f with
          | draining => left; simp [step, hfl]
          | inflight b =>
              by_cases ho : o.acceptedByClient
              · exact Or.inr (Or.inr ⟨i, o, rfl, ho, by simp [step, hfl, ho]⟩)
              · left; simp [step, hfl, ho]

/-- C10: `saveRecord` appends, leaving every previously queued record and
its key in place; the drain step leaves the store unchanged; and the only
event that ever removes a record from the store is a success response
running `clear`. -/
theorem frame_only_clear_removes (s : SysState) (e : Event) (r : Record)
    (i : Nat) :
    (s.store.add r).items = s.store.items ++ [(s.store.nextKey, r)] ∧
    (step s (Event.drain i)).store = s.store ∧
    (∀ kr ∈ s.store.items, kr ∉ (step s e).store.items →
      ∃ j o, e = Event.respond j o ∧ o.acceptedByClient = true ∧
        (step s e).store = s.store.clear) := by
  refine ⟨rfl, store_step_drain s i, ?_⟩
  intro kr hin hout
  rcases store_change_cases s e with h | ⟨r2, _, h⟩ | ⟨j, o, he, ho, h⟩
  · rw [h] at hout; exact absurd hin hout
  · rw [h] at hout
    exact absurd (List.mem_append_left _ hin) hout
  · exact ⟨j, o, he, ho, h⟩

/-- Witness for C10: responding with success to the in-flight flush of
`windowFreePrefix` is precisely a clear, and removes `(1, Zesty)`. -/
theorem frame_only_clear_removes_witness :
    ((windowFreePrefix.store.add ⟨"Pepperoni", "Medium"⟩).items
        = windowFreePrefix.store.items
          ++ [(windowFreePrefix.store.nextKey, Record.mk "Pepperoni" "Medium")] ∧
     (step windowFreePrefix (Event.drain 0)).store = windowFreePrefix.store ∧
     (∀ kr ∈ windowFreePrefix.store.items,
        kr ∉ (step windowFreePrefix
          (Event.respond 0 (FetchOutcome.response 201 true false))).store.items →
        ∃ j o, Event.respond 0 (FetchOutcome.response 201 true false)
              = Event.respond j o ∧
          o.acceptedByClient = true ∧
          (step windowFreePrefix
            (Event.respond 0 (FetchOutcome.response 201 true false))).store
            = windowFreePrefix.store.clear)) :=
  frame_only_clear_removes windowFreePrefix
    (Event.respond 0 (FetchOutcome.response 201 true false))
    ⟨"Pepperoni", "Medium"⟩ 0

end PizzaHunt
